import Mathlib

/-!
Verification development for the watchit file-watching library
(src/src/lib.rs).  The library is a thin façade over an OS event
subscription primitive (the notify watcher) and a debouncing
accumulator (the notify-debouncer-full pipeline).  The façade itself
— the `Watcher` struct with its `new` and `watch` operations — is
embedded directly from src/src/lib.rs; the collaborators it drives
(the OS subscription set, the identity-cache root set, and the
debounce accumulator) live in external crates and are modelled from
the specification where their internals are needed.
-/

/-- Recursion mode for a watch registration, as in the notify crate:
watching a directory either covers its descendants (`Recursive`) or
not (`NonRecursive`). -/
inductive RecursiveMode where
  | Recursive
  | NonRecursive
  deriving DecidableEq, Repr

/-- Modelled from the spec: the `WatchError` taxonomy of §7.  The
source re-exports notify's opaque `Error` type; only its identity
matters to the façade, which forwards it untouched. -/
inductive Error where
  | PathNotFound
  | PermissionDenied
  | ResourceExhausted
  | AlreadyWatched
  | NotWatched
  | OsIntegrationFailure
  deriving DecidableEq, Repr

/-- The mutable state the façade drives: the notify watcher's OS
subscription set and the identity cache's (FileIdMap's) root set.
Both are lists of (path, mode) entries. -/
structure WatchState where
  subscriptions : List (String × RecursiveMode)
  roots : List (String × RecursiveMode)
  deriving DecidableEq, Repr

/-- Number of entries for path `p` in an entry list. -/
def pathCount (l : List (String × RecursiveMode)) (p : String) : Nat :=
  l.countP (fun q => q.1 == p)

/-- Whether an entry list holds some entry for path `p`. -/
def hasPath (l : List (String × RecursiveMode)) (p : String) : Bool :=
  l.any (fun q => q.1 == p)

/-- Registering a path in the OS subscription set: a fresh path is
appended; re-watching an already-subscribed path replaces its mode
(the notify watcher keeps one subscription per path). -/
def insertPath (l : List (String × RecursiveMode)) (p : String)
    (m : RecursiveMode) : List (String × RecursiveMode) :=
  if hasPath l p then
    l.map (fun q => if q.1 == p then (p, m) else q)
  else
    l ++ [(p, m)]

/-- Modelled from the spec: the Identity Cache operation
`add_root(path, mode)` of §4.3 — seeds identity tracking for a new
root, and is idempotent: adding the same root twice is a no-op.  The
implementation lives in the notify-debouncer-full crate (FileIdMap),
absent from src/. -/
def add_root (l : List (String × RecursiveMode)) (p : String)
    (m : RecursiveMode) : List (String × RecursiveMode) :=
  if hasPath l p then l else l ++ [(p, m)]

/-- Embedding of the notify watcher's `watch` call as used at
src/src/lib.rs line 80: the OS outcome is an oracle `os` (`some e`
meaning the subscription attempt fails with error `e`); on success
the path is registered in the subscription set, on failure the
subscription set is untouched and the error is the call's result. -/
def subscribe (os : String → RecursiveMode → Option Error)
    (s : WatchState) (p : String) (m : RecursiveMode) :
    Except Error Unit × WatchState :=
  match os p m with
  | some e => (Except.error e, s)
  | none => (Except.ok (), { s with subscriptions := insertPath s.subscriptions p m })

/-- Embedding of `Watcher::watch` (src/src/lib.rs lines 76-89): it
subscribes the path with the OS watcher in `NonRecursive` mode,
stores that call's result, then unconditionally adds the identity
cache root for the path in `NonRecursive` mode, and returns the
stored subscription result. -/
def Watcher.watch (os : String → RecursiveMode → Option Error)
    (s : WatchState) (filename : String) :
    Except Error Unit × WatchState :=
  let r := subscribe os s filename RecursiveMode.NonRecursive
  (r.1, { r.2 with roots := add_root r.2.roots filename RecursiveMode.NonRecursive })

/-- The public methods of the `Watcher` impl block in
src/src/lib.rs: exactly `new` (lines 57-63) and `watch`
(lines 76-89). -/
def Watcher.publicMethods : List String :=
  ["new", "watch"]

/-- States of the façade reachable from a fresh watcher (empty
subscription set, empty root set) through `watch` calls under
arbitrary OS outcomes. -/
inductive Reachable : WatchState → Prop where
  | init : Reachable ⟨[], []⟩
  | step (os : String → RecursiveMode → Option Error) (s : WatchState)
      (p : String) : Reachable s → Reachable (Watcher.watch os s p).2

/-- The façade state left behind by a `watch` call whose OS
subscription failed (for example a path that does not exist),
starting from a fresh watcher. -/
def failedWatchState : WatchState :=
  (Watcher.watch (fun _ _ => some Error.PathNotFound) ⟨[], []⟩ "a.txt").2

/-- Raw event kinds consumed by the debounce accumulator model.
Modelled from the spec: the `RawEvent.kind` field of §3, restricted
to the kinds the settled claims exercise (`Create`, `Modify`,
`Remove`); rename halves and their correlation are outside the scope
of this model. -/
inductive RawKind where
  | Create
  | Modify
  | Remove
  deriving DecidableEq, Repr

/-- Modelled from the spec: the `FinalizedEvent.kind` alternatives of
§3 reachable from the modelled raw kinds. -/
inductive CoalescedKind where
  | Created
  | Modified
  | Removed
  deriving DecidableEq, Repr

/-- Coalescing precedence of §4.4: `Removed` beats `Created` beats
`Modified` (the `Renamed` rank sits between `Removed` and `Created`
and is unused by the modelled kinds). -/
def kindRank : CoalescedKind → Nat
  | CoalescedKind.Modified => 0
  | CoalescedKind.Created => 1
  | CoalescedKind.Removed => 3

/-- Merging a later event kind into the window's coalesced kind by
precedence (§4.4): the higher-ranked kind wins, ties keep the
earlier. -/
def mergeKind (a b : CoalescedKind) : CoalescedKind :=
  if kindRank a < kindRank b then b else a

/-- The coalesced kind contributed by a single raw event. -/
def initialKind : RawKind → CoalescedKind
  | RawKind.Create => CoalescedKind.Created
  | RawKind.Modify => CoalescedKind.Modified
  | RawKind.Remove => CoalescedKind.Removed

/-- Modelled from the spec: the `PendingWindow` accumulation state of
§3 for one path — earliest and last event times plus the coalesced
kind (times are in milliseconds). -/
structure Pending where
  earliest : Nat
  last : Nat
  kind : CoalescedKind
  deriving DecidableEq, Repr

/-- The instant a pending window's timer fires (§4.4): the sliding
debounce timer at `last + window`, capped — when a max-wait ceiling
`m` is configured — by the ceiling `earliest + m`, which is
independent of later activity. -/
def flushTime (window : Nat) (maxWait : Option Nat) (w : Pending) : Nat :=
  match maxWait with
  | none => w.last + window
  | some m => min (w.last + window) (w.earliest + m)

/-- Opening a pending window on the first raw event for a path since
the last flush (§4.4): `earliest = last = now`. -/
def startWindow (t : Nat) (k : RawKind) : Pending :=
  { earliest := t, last := t, kind := initialKind k }

/-- Folding a further raw event into an open window (§4.4): the last
event time advances, the earliest stays, the kind merges by
precedence. -/
def mergeEvent (w : Pending) (t : Nat) (k : RawKind) : Pending :=
  { earliest := w.earliest, last := w.last.max t, kind := mergeKind w.kind (initialKind k) }

/-- Modelled from the spec: the Debounce Accumulator state machine of
§4.4 for a single path, run over a time-ordered list of raw events
(time in milliseconds).  State `none` is `Idle`, `some w` is
`Accumulating w`.  An event arriving at or after the pending
window's flush instant finds the window already flushed: the flush
is emitted and the event opens a fresh window; an event arriving
strictly before the flush instant merges into the window and
re-arms the sliding timer.  A window still open when the event
stream ends flushes at its timer. -/
def run (window : Nat) (maxWait : Option Nat) :
    Option Pending → List (Nat × RawKind) → List (Nat × CoalescedKind)
  | none, [] => []
  | some w, [] => [(flushTime window maxWait w, w.kind)]
  | none, (t, k) :: rest => run window maxWait (some (startWindow t k)) rest
  | some w, (t, k) :: rest =>
    if flushTime window maxWait w ≤ t then
      (flushTime window maxWait w, w.kind) :: run window maxWait (some (startWindow t k)) rest
    else
      run window maxWait (some (mergeEvent w t k)) rest

/-- A stream of raw `Modify` events at the given times. -/
def modifies (ts : List Nat) : List (Nat × RawKind) :=
  ts.map (fun t => (t, RawKind.Modify))

/-- Rust's `Duration::from_secs`, measured in milliseconds. -/
def durationFromSecs (n : Nat) : Nat :=
  1000 * n

/-- The debouncer configuration assembled by `new_debouncer` as
called at src/src/lib.rs line 59: the debounce timeout, the optional
tick-rate argument, and the bound event handler (the terminal
callback); `β` is the handler's result type. -/
structure Debouncer (β : Type) where
  timeoutMillis : Nat
  tickRate : Option Nat
  handler : Nat × CoalescedKind → β

/-- The `Watcher` struct of src/src/lib.rs lines 38-43: it owns just
the debouncer. -/
structure Watcher (β : Type) where
  debouncer : Debouncer β

/-- Outcome of a Rust call that either returns a value or panics
(`unwrap` on an error). -/
inductive PanicOr (α : Type) where
  | panicked
  | ok (a : α)

/-- Embedding of `Watcher::new` (src/src/lib.rs lines 57-63):
`new_debouncer(Duration::from_secs(2), None, handler)` is called and
its result unwrapped — `creationFailure` is `some e` when debouncer
creation fails with error `e`, in which case the unwrap panics;
otherwise the watcher owns a debouncer with a 2-second timeout, no
tick-rate override, and the given handler.  The public signature
returns `Self`, never a `Result`. -/
def Watcher.new {β : Type} (handler : Nat × CoalescedKind → β)
    (creationFailure : Option Error) : PanicOr (Watcher β) :=
  match creationFailure with
  | some _ => PanicOr.panicked
  | none => PanicOr.ok ⟨⟨durationFromSecs 2, none, handler⟩⟩

/-- Deliveries made to a watcher's bound handler when the accumulator
flushes the given single-path event stream: one handler invocation
per flush (§4.5, Dispatcher), under ceiling configuration
`maxWait`. -/
def deliveries {β : Type} (w : Watcher β) (maxWait : Option Nat)
    (evts : List (Nat × RawKind)) : List β :=
  (run w.debouncer.timeoutMillis maxWait none evts).map w.debouncer.handler


theorem pathCount_append (l1 l2 : List (String × RecursiveMode)) (p : String) :
    pathCount (l1 ++ l2) p = pathCount l1 p + pathCount l2 p := by
  simp [pathCount, List.countP_append]

theorem hasPath_iff_pathCount_pos (l : List (String × RecursiveMode)) (p : String) :
    hasPath l p = true ↔ 0 < pathCount l p := by
  simp [hasPath, pathCount, List.any_eq_true, List.countP_pos_iff]

theorem pathCount_eq_zero_of_not_hasPath (l : List (String × RecursiveMode)) (p : String)
    (h : hasPath l p = false) : pathCount l p = 0 := by
  have hiff := hasPath_iff_pathCount_pos l p
  rw [h] at hiff
  simp at hiff
  omega

theorem pathCount_add_root_of_hasPath (l : List (String × RecursiveMode)) (p q : String)
    (m : RecursiveMode) (h : hasPath l p = true) :
    pathCount (add_root l p m) q = pathCount l q := by
  simp [add_root, h]

theorem pathCount_add_root_of_not_hasPath (l : List (String × RecursiveMode)) (p q : String)
    (m : RecursiveMode) (h : hasPath l p = false) :
    pathCount (add_root l p m) q = pathCount l q + (if p == q then 1 else 0) := by
  simp only [add_root, h, Bool.false_eq_true, if_false, pathCount_append]
  simp [pathCount, List.countP_cons]

theorem pathCount_le_add_root (l : List (String × RecursiveMode)) (p q : String)
    (m : RecursiveMode) : pathCount l q ≤ pathCount (add_root l p m) q := by
  by_cases h : hasPath l p = true
  · rw [pathCount_add_root_of_hasPath l p q m h]
  · rw [pathCount_add_root_of_not_hasPath l p q m (by simpa using h)]
    omega

theorem pathCount_add_root_self_pos (l : List (String × RecursiveMode)) (p : String)
    (m : RecursiveMode) : 0 < pathCount (add_root l p m) p := by
  by_cases h : hasPath l p = true
  · rw [pathCount_add_root_of_hasPath l p p m h]
    exact (hasPath_iff_pathCount_pos l p).mp h
  · rw [pathCount_add_root_of_not_hasPath l p p m (by simpa using h)]
    simp

theorem pathCount_add_root_le_one (l : List (String × RecursiveMode)) (p q : String)
    (m : RecursiveMode) (h : ∀ r, pathCount l r ≤ 1) :
    pathCount (add_root l p m) q ≤ 1 := by
  by_cases hp : hasPath l p = true
  · rw [pathCount_add_root_of_hasPath l p q m hp]
    exact h q
  · rw [pathCount_add_root_of_not_hasPath l p q m (by simpa using hp)]
    by_cases hq : p == q
    · have hq2 : p = q := by simpa using hq
      have h0 : pathCount l q = 0 := by
        rw [← hq2]
        exact pathCount_eq_zero_of_not_hasPath l p (by simpa using hp)
      simp [hq, h0]
    · have := h q
      simp only [hq, Bool.false_eq_true, if_false]
      omega

theorem pathCount_insertPath_of_hasPath (l : List (String × RecursiveMode)) (p q : String)
    (m : RecursiveMode) (h : hasPath l p = true) :
    pathCount (insertPath l p m) q = pathCount l q := by
  simp only [insertPath, h, if_true]
  rw [pathCount, List.countP_map]
  apply List.countP_congr
  intro r _
  by_cases hr : r.1 == p
  · have hr2 : r.1 = p := by simpa using hr
    simp [Function.comp, hr, hr2]
  · simp [Function.comp, hr]

theorem pathCount_insertPath_of_not_hasPath (l : List (String × RecursiveMode)) (p q : String)
    (m : RecursiveMode) (h : hasPath l p = false) :
    pathCount (insertPath l p m) q = pathCount l q + (if p == q then 1 else 0) := by
  simp only [insertPath, h, Bool.false_eq_true, if_false, pathCount_append]
  simp [pathCount, List.countP_cons]

theorem pathCount_le_insertPath (l : List (String × RecursiveMode)) (p q : String)
    (m : RecursiveMode) : pathCount l q ≤ pathCount (insertPath l p m) q := by
  by_cases h : hasPath l p = true
  · rw [pathCount_insertPath_of_hasPath l p q m h]
  · rw [pathCount_insertPath_of_not_hasPath l p q m (by simpa using h)]
    omega

theorem pathCount_insertPath_self_pos (l : List (String × RecursiveMode)) (p : String)
    (m : RecursiveMode) : 0 < pathCount (insertPath l p m) p := by
  by_cases h : hasPath l p = true
  · rw [pathCount_insertPath_of_hasPath l p p m h]
    exact (hasPath_iff_pathCount_pos l p).mp h
  · rw [pathCount_insertPath_of_not_hasPath l p p m (by simpa using h)]
    simp

theorem pathCount_insertPath_le_one (l : List (String × RecursiveMode)) (p q : String)
    (m : RecursiveMode) (h : ∀ r, pathCount l r ≤ 1) :
    pathCount (insertPath l p m) q ≤ 1 := by
  by_cases hp : hasPath l p = true
  · rw [pathCount_insertPath_of_hasPath l p q m hp]
    exact h q
  · rw [pathCount_insertPath_of_not_hasPath l p q m (by simpa using hp)]
    by_cases hq : p == q
    · have hq2 : p = q := by simpa using hq
      have h0 : pathCount l q = 0 := by
        rw [← hq2]
        exact pathCount_eq_zero_of_not_hasPath l p (by simpa using hp)
      simp [hq, h0]
    · have := h q
      simp only [hq, Bool.false_eq_true, if_false]
      omega

theorem watch_result_eq (os : String → RecursiveMode → Option Error)
    (s : WatchState) (p : String) :
    (Watcher.watch os s p).1 = (match os p RecursiveMode.NonRecursive with
      | some e => Except.error e
      | none => Except.ok ()) := by
  unfold Watcher.watch subscribe
  cases os p RecursiveMode.NonRecursive <;> rfl

theorem watch_roots_eq (os : String → RecursiveMode → Option Error)
    (s : WatchState) (p : String) :
    (Watcher.watch os s p).2.roots = add_root s.roots p RecursiveMode.NonRecursive := by
  unfold Watcher.watch subscribe
  cases os p RecursiveMode.NonRecursive <;> rfl

theorem watch_subscriptions_eq (os : String → RecursiveMode → Option Error)
    (s : WatchState) (p : String) :
    (Watcher.watch os s p).2.subscriptions = (match os p RecursiveMode.NonRecursive with
      | some _ => s.subscriptions
      | none => insertPath s.subscriptions p RecursiveMode.NonRecursive) := by
  unfold Watcher.watch subscribe
  cases os p RecursiveMode.NonRecursive <;> rfl

/-- C1 counterexample: starting from a fresh watcher, a `watch` call
whose OS subscription fails with `PathNotFound` returns that error to
the caller, yet a root entry for the path is still added to the
identity cache while the subscription set stays empty — refuting the
claim that a failed OS subscription leaves no root entry behind. -/
theorem watch_failed_subscription_still_adds_root :
    (Watcher.watch (fun _ _ => some Error.PathNotFound) ⟨[], []⟩ "a.txt").1
      = Except.error Error.PathNotFound ∧
    (Watcher.watch (fun _ _ => some Error.PathNotFound) ⟨[], []⟩ "a.txt").2.roots
      = [("a.txt", RecursiveMode.NonRecursive)] ∧
    (Watcher.watch (fun _ _ => some Error.PathNotFound) ⟨[], []⟩ "a.txt").2.subscriptions
      = [] :=
  ⟨rfl, by decide, by decide⟩

/-- C1 (amended): for every OS outcome, state and path, `watch`
returns the OS subscription result to the caller and updates the
subscription set only on success, but the identity-cache root entry
for the path is added unconditionally — also when the OS subscription
fails — so registration is partially applied on failure rather than
atomic. -/
theorem watch_propagates_error_but_always_adds_root
    (os : String → RecursiveMode → Option Error) (s : WatchState) (p : String) :
    ((Watcher.watch os s p).1 = (match os p RecursiveMode.NonRecursive with
       | some e => Except.error e
       | none => Except.ok ())) ∧
    hasPath (Watcher.watch os s p).2.roots p = true ∧
    ((Watcher.watch os s p).2.subscriptions = (match os p RecursiveMode.NonRecursive with
       | some _ => s.subscriptions
       | none => insertPath s.subscriptions p RecursiveMode.NonRecursive)) :=
  ⟨watch_result_eq os s p,
   by
     rw [watch_roots_eq]
     exact (hasPath_iff_pathCount_pos _ _).mpr (pathCount_add_root_self_pos _ _ _),
   watch_subscriptions_eq os s p⟩

/-- C2 counterexample: the impl block of `Watcher` in src/src/lib.rs
exposes exactly `new` and `watch`; the unwatch operation the claim
describes does not exist in the public API. -/
theorem no_unwatch_in_public_api : "unwatch" ∉ Watcher.publicMethods := by
  decide

/-- C2 (amended): the public API exposes no unwatch operation — its
only public methods are `new` and `watch` — and `watch` never removes
a subscription or root entry, so a path once watched cannot be
unregistered through the public API. -/
theorem public_api_cannot_remove_watches :
    Watcher.publicMethods = ["new", "watch"] ∧
    (∀ os s p q, pathCount s.subscriptions q
        ≤ pathCount (Watcher.watch os s p).2.subscriptions q) ∧
    (∀ os s p q, pathCount s.roots q ≤ pathCount (Watcher.watch os s p).2.roots q) := by
  refine ⟨rfl, ?_, ?_⟩
  · intro os s p q
    rw [watch_subscriptions_eq]
    cases hos : os p RecursiveMode.NonRecursive
    · exact pathCount_le_insertPath _ _ _ _
    · exact Nat.le_refl _
  · intro os s p q
    rw [watch_roots_eq]
    exact pathCount_le_add_root _ _ _ _

/-- C3: a registration-time failure is surfaced synchronously: for
every OS oracle, façade state and path whose OS subscription attempt
fails with error `e` (for example `PathNotFound` for a file that does
not exist), `watch` returns exactly that error to the caller. -/
theorem watch_returns_os_error_synchronously
    (os : String → RecursiveMode → Option Error) (s : WatchState) (p : String)
    (e : Error) (h : os p RecursiveMode.NonRecursive = some e) :
    (Watcher.watch os s p).1 = Except.error e := by
  rw [watch_result_eq os s p, h]

/-- C3 witness: watching "a.txt" while the OS reports the path as
missing fails with the path-not-found error. -/
theorem watch_returns_os_error_synchronously_witness :
    (fun (_ : String) (_ : RecursiveMode) => some Error.PathNotFound) "a.txt"
      RecursiveMode.NonRecursive = some Error.PathNotFound ∧
    (Watcher.watch (fun _ _ => some Error.PathNotFound) ⟨[], []⟩ "a.txt").1
      = Except.error Error.PathNotFound :=
  ⟨rfl, watch_returns_os_error_synchronously (fun _ _ => some Error.PathNotFound)
    ⟨[], []⟩ "a.txt" Error.PathNotFound rfl⟩

/-- Structural invariant of the façade state: at most one entry per
path in each of the two sets, and every subscribed path also has a
root entry (the converse can fail, see the C7 counterexample). -/
def WInv (s : WatchState) : Prop :=
  (∀ p, pathCount s.subscriptions p ≤ 1) ∧
  (∀ p, pathCount s.roots p ≤ 1) ∧
  (∀ p, pathCount s.subscriptions p ≤ pathCount s.roots p)

theorem watch_preserves_WInv (os : String → RecursiveMode → Option Error)
    (s : WatchState) (p : String) (h : WInv s) : WInv (Watcher.watch os s p).2 := by
  obtain ⟨h1, h2, h3⟩ := h
  refine ⟨?_, ?_, ?_⟩
  · intro q
    rw [watch_subscriptions_eq]
    cases hos : os p RecursiveMode.NonRecursive
    · exact pathCount_insertPath_le_one _ _ _ _ h1
    · exact h1 q
  · intro q
    rw [watch_roots_eq]
    exact pathCount_add_root_le_one _ _ _ _ h2
  · intro q
    rw [watch_subscriptions_eq, watch_roots_eq]
    cases hos : os p RecursiveMode.NonRecursive
    · by_cases hp : hasPath s.subscriptions p = true
      · rw [pathCount_insertPath_of_hasPath _ _ _ _ hp]
        exact Nat.le_trans (h3 q) (pathCount_le_add_root _ _ _ _)
      · rw [pathCount_insertPath_of_not_hasPath _ _ _ _ (by simpa using hp)]
        by_cases hq : (p == q) = true
        · have hq2 : p = q := by simpa using hq
          subst hq2
          have h0 : pathCount s.subscriptions p = 0 :=
            pathCount_eq_zero_of_not_hasPath _ _ (by simpa using hp)
          have hpos := pathCount_add_root_self_pos s.roots p RecursiveMode.NonRecursive
          simp only [hq, if_true]
          omega
        · simp only [hq, Bool.false_eq_true, if_false]
          have ha := h3 q
          have hb := pathCount_le_add_root s.roots p q RecursiveMode.NonRecursive
          omega
    · exact Nat.le_trans (h3 q) (pathCount_le_add_root _ _ _ _)

theorem reachable_WInv (s : WatchState) (h : Reachable s) : WInv s := by
  induction h with
  | init =>
    refine ⟨?_, ?_, ?_⟩ <;> intro p <;> simp [pathCount]
  | step os s p hs ih =>
    exact watch_preserves_WInv os s p ih

/-- C7 counterexample: the reachable state left behind by a failed
`watch` call has a root entry for "a.txt" in the identity cache but
no subscription entry — refuting the claimed invariant that no path
has one of the two without the other. -/
theorem reachable_root_without_subscription :
    Reachable failedWatchState ∧
    pathCount failedWatchState.roots "a.txt" = 1 ∧
    pathCount failedWatchState.subscriptions "a.txt" = 0 :=
  ⟨Reachable.step (fun _ _ => some Error.PathNotFound) ⟨[], []⟩ "a.txt" Reachable.init,
   by decide, by decide⟩

/-- C7 (amended): in every reachable façade state, a path holding a
subscription entry has exactly one subscription entry and exactly one
root entry; however, the converse inclusion fails, since a failed
watch leaves a root entry with no subscription entry. -/
theorem subscribed_path_has_unique_entries (s : WatchState) (h : Reachable s)
    (p : String) (hp : 0 < pathCount s.subscriptions p) :
    pathCount s.subscriptions p = 1 ∧ pathCount s.roots p = 1 := by
  obtain ⟨h1, h2, h3⟩ := reachable_WInv s h
  have a1 := h1 p
  have a2 := h2 p
  have a3 := h3 p
  omega

/-- The façade state after one successful watch of "b.txt" from a
fresh watcher. -/
def successWatchState : WatchState :=
  (Watcher.watch (fun _ _ => none) ⟨[], []⟩ "b.txt").2

/-- C7 witness: the state after a successful watch of "b.txt" is
reachable, subscribes "b.txt", and carries exactly one subscription
entry and one root entry for it. -/
theorem subscribed_path_has_unique_entries_witness :
    0 < pathCount successWatchState.subscriptions "b.txt" ∧
    (pathCount successWatchState.subscriptions "b.txt" = 1 ∧
     pathCount successWatchState.roots "b.txt" = 1) :=
  ⟨by decide,
   subscribed_path_has_unique_entries successWatchState
     (Reachable.step (fun _ _ => none) ⟨[], []⟩ "b.txt" Reachable.init)
     "b.txt" (by decide)⟩

/-- C9: `Watcher::new` surfaces no `Result` to its caller — when
debouncer creation fails, the `unwrap` at src/src/lib.rs line 59
panics, and on success the constructed watcher is returned directly;
the return type offers no error alternative. -/
theorem new_panics_instead_of_returning_error :
    ∀ (β : Type) (h : Nat × CoalescedKind → β) (e : Error),
      Watcher.new h (some e) = PanicOr.panicked ∧
      Watcher.new h none = PanicOr.ok ⟨⟨durationFromSecs 2, none, h⟩⟩ :=
  fun _ _ _ => ⟨rfl, rfl⟩

theorem mem_insertPath (l : List (String × RecursiveMode)) (p : String)
    (m : RecursiveMode) (q : String × RecursiveMode)
    (hq : q ∈ insertPath l p m) : q ∈ l ∨ q.2 = m := by
  by_cases hp : hasPath l p = true
  · simp only [insertPath, hp, if_true] at hq
    obtain ⟨r, hr, hfr⟩ := List.mem_map.mp hq
    by_cases hrp : (r.1 == p) = true
    · right
      rw [← hfr]
      simp [hrp]
    · left
      rw [← hfr]
      simpa [hrp] using hr
  · simp only [insertPath, hp, Bool.false_eq_true, if_false] at hq
    rcases List.mem_append.mp hq with hmem | hmem
    · exact Or.inl hmem
    · right
      simp only [List.mem_singleton] at hmem
      rw [hmem]

theorem mem_add_root (l : List (String × RecursiveMode)) (p : String)
    (m : RecursiveMode) (q : String × RecursiveMode)
    (hq : q ∈ add_root l p m) : q ∈ l ∨ q.2 = m := by
  by_cases hp : hasPath l p = true
  · simp only [add_root, hp, if_true] at hq
    exact Or.inl hq
  · simp only [add_root, hp, Bool.false_eq_true, if_false] at hq
    rcases List.mem_append.mp hq with hmem | hmem
    · exact Or.inl hmem
    · right
      simp only [List.mem_singleton] at hmem
      rw [hmem]

/-- C10: `watch` registers with `NonRecursive` mode unconditionally:
its whole outcome depends on the OS oracle only at `NonRecursive`
mode, and every entry it adds to the subscription set or the root set
carries `NonRecursive` mode — the public API offers no way to request
recursive coverage. -/
theorem watch_mode_always_nonrecursive :
    (∀ os os2 s p,
        os p RecursiveMode.NonRecursive = os2 p RecursiveMode.NonRecursive →
        Watcher.watch os s p = Watcher.watch os2 s p) ∧
    (∀ os s p q, q ∈ (Watcher.watch os s p).2.subscriptions →
        q ∈ s.subscriptions ∨ q.2 = RecursiveMode.NonRecursive) ∧
    (∀ os s p q, q ∈ (Watcher.watch os s p).2.roots →
        q ∈ s.roots ∨ q.2 = RecursiveMode.NonRecursive) := by
  refine ⟨?_, ?_, ?_⟩
  · intro os os2 s p h
    unfold Watcher.watch subscribe
    rw [h]
  · intro os s p q hq
    rw [watch_subscriptions_eq] at hq
    cases hos : os p RecursiveMode.NonRecursive <;> rw [hos] at hq
    · exact mem_insertPath _ _ _ _ hq
    · exact Or.inl hq
  · intro os s p q hq
    rw [watch_roots_eq] at hq
    exact mem_add_root _ _ _ _ hq

/-- An OS oracle that accepts every subscription. -/
def osAlwaysOk : String → RecursiveMode → Option Error :=
  fun _ _ => none

/-- An OS oracle that accepts non-recursive subscriptions and rejects
recursive ones. -/
def osRejectsRecursive : String → RecursiveMode → Option Error :=
  fun _ m =>
    match m with
    | RecursiveMode.Recursive => some Error.PermissionDenied
    | RecursiveMode.NonRecursive => none

/-- C10 witness: two oracles that disagree on recursive subscriptions
but agree at `NonRecursive` give identical `watch` outcomes on
"a.txt" from a fresh watcher. -/
theorem watch_mode_always_nonrecursive_witness :
    osAlwaysOk "a.txt" RecursiveMode.NonRecursive
      = osRejectsRecursive "a.txt" RecursiveMode.NonRecursive ∧
    Watcher.watch osAlwaysOk ⟨[], []⟩ "a.txt"
      = Watcher.watch osRejectsRecursive ⟨[], []⟩ "a.txt" :=
  ⟨rfl, watch_mode_always_nonrecursive.1 osAlwaysOk osRejectsRecursive ⟨[], []⟩ "a.txt" rfl⟩

theorem run_modifies_chain (window : Nat) (w : Pending) (ts : List Nat)
    (hk : w.kind = CoalescedKind.Modified)
    (hch : List.Chain (fun a b => a ≤ b ∧ b < a + window) w.last ts) :
    run window none (some w) (modifies ts)
      = [(ts.getLastD w.last + window, CoalescedKind.Modified)] := by
  induction ts generalizing w with
  | nil =>
    simp [run, modifies, flushTime, hk]
  | cons t ts ih =>
    rw [List.chain_cons] at hch
    obtain ⟨⟨hle, hlt⟩, hch2⟩ := hch
    have hflush : ¬ (flushTime window none w ≤ t) := by
      simp only [flushTime]
      omega
    simp only [modifies, List.map_cons, run, hflush, if_false]
    have hlast : (mergeEvent w t RawKind.Modify).last = t := by
      simp [mergeEvent, Nat.max_eq_right hle]
    have hkind : (mergeEvent w t RawKind.Modify).kind = CoalescedKind.Modified := by
      simp [mergeEvent, hk, initialKind, mergeKind, kindRank]
    have := ih (mergeEvent w t RawKind.Modify) hkind (by rw [hlast]; exact hch2)
    rw [hlast] at this
    rw [List.getLastD_cons]
    exact this

/-- C6: debounce coalescing, proved against the accumulator model of
§4.4: every burst of raw `Modify` events for a path in which each
event arrives before the previous event's debounce timer fires is
flushed as exactly one finalized `Modified` event, delivered one
debounce window after the burst's last event. -/
theorem debounce_coalesces_modify_burst (window t0 : Nat) (ts : List Nat)
    (hch : List.Chain (fun a b => a ≤ b ∧ b < a + window) t0 ts) :
    run window none none (modifies (t0 :: ts))
      = [(ts.getLastD t0 + window, CoalescedKind.Modified)] := by
  have h0 : run window none none (modifies (t0 :: ts))
      = run window none (some (startWindow t0 RawKind.Modify)) (modifies ts) := by
    simp [modifies, run]
  rw [h0]
  exact run_modifies_chain window (startWindow t0 RawKind.Modify) ts rfl hch

/-- C6 witness: three writes at 0 ms, 500 ms and 1000 ms under a
2000 ms window coalesce into the single flush (3000, Modified). -/
theorem debounce_coalesces_modify_burst_witness :
    List.Chain (fun a b => a ≤ b ∧ b < a + 2000) 0 [500, 1000] ∧
    run 2000 none none (modifies [0, 500, 1000])
      = [(3000, CoalescedKind.Modified)] :=
  ⟨List.Chain.cons (by decide) (List.Chain.cons (by decide) List.Chain.nil),
   debounce_coalesces_modify_burst 2000 0 [500, 1000]
     (List.Chain.cons (by decide) (List.Chain.cons (by decide) List.Chain.nil))⟩

/-- C8: the debounce window slides, proved against the accumulator
model of §4.4: two raw `Modify` events at `t0` and `t1` with `t1`
inside the window opened at `t0` produce one flush at `t1 + window`
— the timer re-armed by the second event — not at `t0 + window`. -/
theorem sliding_window_rearms_on_activity (window t0 t1 : Nat)
    (h0 : t0 ≤ t1) (h1 : t1 < t0 + window) :
    run window none none [(t0, RawKind.Modify), (t1, RawKind.Modify)]
      = [(t1 + window, CoalescedKind.Modified)] := by
  have h : [(t0, RawKind.Modify), (t1, RawKind.Modify)] = modifies [t0, t1] := rfl
  rw [h]
  have := debounce_coalesces_modify_burst window t0 [t1]
    (List.chain_cons.mpr ⟨⟨h0, h1⟩, List.Chain.nil⟩)
  simpa using this

/-- C8 witness: with a 2000 ms window, events at 0 ms and 1900 ms
flush once at 3900 ms, not at 2000 ms. -/
theorem sliding_window_rearms_on_activity_witness :
    0 ≤ 1900 ∧ 1900 < 0 + 2000 ∧
    run 2000 none none [(0, RawKind.Modify), (1900, RawKind.Modify)]
      = [(3900, CoalescedKind.Modified)] :=
  ⟨by decide, by decide, sliding_window_rearms_on_activity 2000 0 1900 (by decide) (by decide)⟩

theorem run_flushes_by_ceiling (window m : Nat) (w : Pending)
    (evts : List (Nat × RawKind)) (hex : ∃ e ∈ evts, w.earliest + m ≤ e.1) :
    ∃ f ∈ run window (some m) (some w) evts, f.1 ≤ w.earliest + m := by
  induction evts generalizing w with
  | nil =>
    simp at hex
  | cons e rest ih =>
    obtain ⟨t, k⟩ := e
    by_cases hf : flushTime window (some m) w ≤ t
    · refine ⟨(flushTime window (some m) w, w.kind), ?_, ?_⟩
      · simp [run, hf]
      · simp only [flushTime]
        exact Nat.min_le_right _ _
    · have hrun : run window (some m) (some w) ((t, k) :: rest)
          = run window (some m) (some (mergeEvent w t k)) rest := by
        simp [run, hf]
      obtain ⟨x, hx, hxt⟩ := hex
      rcases List.mem_cons.mp hx with hx1 | hx1
      · exfalso
        have hmin : flushTime window (some m) w ≤ w.earliest + m := by
          simp only [flushTime]
          exact Nat.min_le_right _ _
        rw [hx1] at hxt
        simp only at hxt
        omega
      · have hE : (mergeEvent w t k).earliest = w.earliest := rfl
        have := ih (mergeEvent w t k) (by rw [hE]; exact ⟨x, hx1, hxt⟩)
        rw [hE] at this
        rw [hrun]
        exact this

/-- C5: absence of starvation under a max-wait ceiling, proved
against the accumulator model of §4.4: when a ceiling `m` is
configured, a stream of raw `Modify` events opening at `t0` and still
active at some event past `t0 + m` has already produced a flush no
later than `t0 + m` — strictly before that late event — however
relentless the activity is. -/
theorem max_wait_ceiling_prevents_starvation (window m t0 : Nat)
    (rest : List Nat) (tN : Nat) (hmem : tN ∈ rest) (hlong : t0 + m < tN) :
    ∃ f ∈ run window (some m) none (modifies (t0 :: rest)),
      f.1 ≤ t0 + m ∧ f.1 < tN := by
  have h0 : run window (some m) none (modifies (t0 :: rest))
      = run window (some m) (some (startWindow t0 RawKind.Modify)) (modifies rest) := by
    simp [modifies, run]
  have hex : ∃ e ∈ modifies rest, (startWindow t0 RawKind.Modify).earliest + m ≤ e.1 := by
    refine ⟨(tN, RawKind.Modify), ?_, ?_⟩
    · simp only [modifies, List.mem_map]
      exact ⟨tN, hmem, rfl⟩
    · simp only [startWindow]
      omega
  obtain ⟨f, hfmem, hft⟩ := run_flushes_by_ceiling window m
    (startWindow t0 RawKind.Modify) (modifies rest) hex
  refine ⟨f, ?_, ?_, ?_⟩
  · rw [h0]
    exact hfmem
  · simpa [startWindow] using hft
  · have : f.1 ≤ t0 + m := by simpa [startWindow] using hft
    omega

/-- C5 witness: window 2000 ms, ceiling 5000 ms, events at 0 ms,
1000 ms and 6000 ms: some flush lands no later than 5000 ms, before
the activity still running at 6000 ms. -/
theorem max_wait_ceiling_prevents_starvation_witness :
    (6000 : Nat) ∈ [1000, 6000] ∧ 0 + 5000 < 6000 ∧
    ∃ f ∈ run 2000 (some 5000) none (modifies [0, 1000, 6000]),
      f.1 ≤ 0 + 5000 ∧ f.1 < 6000 :=
  ⟨by decide, by decide,
   max_wait_ceiling_prevents_starvation 2000 5000 0 [1000, 6000] 6000 (by decide) (by decide)⟩

/-- C4: `Watcher::new` constructs the pipeline with the fixed
debounce window `Duration::from_secs(2)` — 2000 ms — no tick-rate
override, and the supplied handler bound as the terminal callback;
the dispatcher then invokes exactly that handler once per flush of
the accumulator. -/
theorem new_binds_two_second_window_and_handler :
    ∀ (β : Type) (h : Nat × CoalescedKind → β),
      Watcher.new h none = PanicOr.ok ⟨⟨durationFromSecs 2, none, h⟩⟩ ∧
      durationFromSecs 2 = 2000 ∧
      ∀ (maxWait : Option Nat) (evts : List (Nat × RawKind)),
        deliveries ⟨⟨durationFromSecs 2, none, h⟩⟩ maxWait evts
          = (run 2000 maxWait none evts).map h :=
  fun _ _ => ⟨rfl, rfl, fun _ _ => rfl⟩
